import Mathlib

/-!
Shallow embedding of `observations/config.go` from the ipfs-cluster fork:
the `MetricsConfig` and `TracingConfig` configuration sections with their
`ConfigKey` / `Default` / `Validate` / `LoadJSON` / `ToJSON` operations.

Modelling conventions:

* JSON documents are embedded at the level of Go's decoded intermediate
  structs (`jsonMetricsConfig`, `jsonTracingConfig`): a `some j` input to
  `LoadJSON` stands for a syntactically valid JSON document that decodes
  to `j` (absent keys decode to Go zero values, exactly as
  `encoding/json` does), and `none` stands for a document rejected by
  `json.Unmarshal`.  `config.DefaultJSONMarshal` only re-encodes the
  intermediate struct, so at this level marshalling is the identity and
  `ToJSON` returns the intermediate struct directly.
* `time.Duration` is an `Int` counting nanoseconds (Go's int64).
* `float64` fields are modelled as `ℚ`; the program only stores these
  values and compares them with `0`, so this is exact for every value a
  claim touches.
* A Go `nil` interface value (`ma.Multiaddr`) is `Option`'s `none`.
* The external go-multiaddr library is modelled concretely for the
  protocols this package uses (`ip4`, `tcp`, `udp`): a multiaddr is a
  list of parsed components, `NewMultiaddr` follows the library's
  string-to-components algorithm (leading-slash check, trailing-slash
  trimming, "empty multiaddr" rejection, protocol table lookup), and
  `maToString` renders the canonical string form.
* The external Go standard library `time.ParseDuration` /
  `Duration.String` pair is modelled by `goParseDuration` /
  `fmtDuration`, following the Go source (sign, integer and fractional
  parts, unit table, int64 overflow checks; formatting with
  trailing-zero-trimmed fractions and h/m/s decomposition).
* The external `envconfig.Process` call is modelled by an environment
  record holding, for each overridable field of the intermediate
  struct, the optional raw string value of its environment variable;
  a present variable overrides the decoded JSON value for that field
  only, parsed according to the field's type (`strconv.ParseBool` for
  booleans, `strconv.ParseFloat` for floats, verbatim for strings).
  The derivation of variable names from the fixed prefix is not
  modelled (no claim depends on the spelling of the variable names).
* The embedded `config.Saver` struct only provides save-channel
  plumbing for the external registry and is touched by none of the
  operations here, so it is omitted from the state.
-/

namespace Observations

/-! ## Character-list helpers (models of Go's strings.Split etc.) -/

def digitVal (c : Char) : Nat := c.toNat - '0'.toNat

def splitOnCharAux (sep : Char) : List Char → List Char → List (List Char)
  | [], acc => [acc.reverse]
  | c :: cs, acc =>
    if c = sep then acc.reverse :: splitOnCharAux sep cs []
    else splitOnCharAux sep cs (c :: acc)

/-- Model of Go's `strings.Split` on a single-character separator. -/
def splitOnChar (sep : Char) (l : List Char) : List (List Char) :=
  splitOnCharAux sep l []

/-- Numeric value of a digit string (used under an all-digits guard). -/
def digitsVal (l : List Char) : Nat :=
  l.foldl (fun acc c => acc * 10 + digitVal c) 0

/-- Model of Go's `strings.TrimRight(s, "/")`. -/
def trimTrailingSlashes (l : List Char) : List Char :=
  (l.reverse.dropWhile (fun c => c = '/')).reverse

/-- Splits off the maximal leading run of decimal digits. -/
def takeDigits : List Char → List Char × List Char
  | [] => ([], [])
  | c :: cs =>
    if c.isDigit then
      let p := takeDigits cs
      (c :: p.1, p.2)
    else ([], c :: cs)

/-! ## Model of the external go-multiaddr library

Only the protocols used by this package (`ip4`, `tcp`, `udp`) are in the
protocol table; a multiaddr value is the list of its parsed components. -/

inductive MAComponent where
  | ip4 (a b c d : Nat)
  | tcp (port : Nat)
  | udp (port : Nat)
deriving DecidableEq, Repr

abbrev Multiaddr := List MAComponent

/-- Model of the ip4 transcoder (`net.ParseIP(...).To4()`): exactly four
dot-separated decimal parts, each at most 255. -/
def parseIP4 (v : List Char) : Option (Nat × Nat × Nat × Nat) :=
  match splitOnChar '.' v with
  | [p1, p2, p3, p4] =>
    if p1 ≠ [] ∧ p1.all Char.isDigit ∧ digitsVal p1 ≤ 255 ∧
       p2 ≠ [] ∧ p2.all Char.isDigit ∧ digitsVal p2 ≤ 255 ∧
       p3 ≠ [] ∧ p3.all Char.isDigit ∧ digitsVal p3 ≤ 255 ∧
       p4 ≠ [] ∧ p4.all Char.isDigit ∧ digitsVal p4 ≤ 255 then
      some (digitsVal p1, digitsVal p2, digitsVal p3, digitsVal p4)
    else none
  | _ => none

/-- Model of the tcp/udp port transcoder (`strconv.ParseUint(s, 10, 16)`). -/
def parsePort (v : List Char) : Option Nat :=
  if v ≠ [] ∧ v.all Char.isDigit ∧ digitsVal v ≤ 65535 then
    some (digitsVal v)
  else none

/-- Parses the `/`-separated tokens after the leading empty token into
components: protocol-name lookup, then one value token per protocol. -/
def parseComponentList : List (List Char) → Except String Multiaddr
  | [] => .ok []
  | name :: rest =>
    let n := String.mk name
    if n = "ip4" then
      match rest with
      | [] => .error ("protocol requires address, none given: " ++ n)
      | v :: rest2 =>
        match parseIP4 v with
        | none => .error ("failed to parse ip4 addr: " ++ String.mk v)
        | some q =>
          match parseComponentList rest2 with
          | .error e => .error e
          | .ok cs => .ok (MAComponent.ip4 q.1 q.2.1 q.2.2.1 q.2.2.2 :: cs)
    else if n = "tcp" then
      match rest with
      | [] => .error ("protocol requires address, none given: " ++ n)
      | v :: rest2 =>
        match parsePort v with
        | none => .error ("failed to parse tcp addr: " ++ String.mk v)
        | some p =>
          match parseComponentList rest2 with
          | .error e => .error e
          | .ok cs => .ok (MAComponent.tcp p :: cs)
    else if n = "udp" then
      match rest with
      | [] => .error ("protocol requires address, none given: " ++ n)
      | v :: rest2 =>
        match parsePort v with
        | none => .error ("failed to parse udp addr: " ++ String.mk v)
        | some p =>
          match parseComponentList rest2 with
          | .error e => .error e
          | .ok cs => .ok (MAComponent.udp p :: cs)
    else .error ("no protocol with name " ++ n)

/-- Model of `ma.NewMultiaddr`: trim trailing slashes, require a leading
slash, reject the empty multiaddr, then parse protocol/value pairs. -/
def NewMultiaddr (s : String) : Except String Multiaddr :=
  match splitOnChar '/' (trimTrailingSlashes s.data) with
  | [] => .error ("failed to parse multiaddr " ++ s)
  | first :: rest =>
    if first ≠ [] then
      .error ("failed to parse multiaddr " ++ s ++ ": must begin with /")
    else if rest = [] then
      .error ("failed to parse multiaddr " ++ s ++ ": empty multiaddr")
    else parseComponentList rest

/-- Canonical string form of one component. -/
def MAComponent.render : MAComponent → String
  | .ip4 a b c d =>
    "/ip4/" ++ Nat.repr a ++ "." ++ Nat.repr b ++ "." ++ Nat.repr c ++ "." ++ Nat.repr d
  | .tcp p => "/tcp/" ++ Nat.repr p
  | .udp p => "/udp/" ++ Nat.repr p

/-- Model of `Multiaddr.String()`: the canonical string form. -/
def maToString (m : Multiaddr) : String :=
  m.foldl (fun acc c => acc ++ c.render) ""

example : NewMultiaddr "/ip4/0.0.0.0/tcp/8888" = .ok [.ip4 0 0 0 0, .tcp 8888] := rfl
example : NewMultiaddr "/ip4/0.0.0.0/udp/6831" = .ok [.ip4 0 0 0 0, .udp 6831] := rfl
example : NewMultiaddr "not-a-multiaddr" =
    .error "failed to parse multiaddr not-a-multiaddr: must begin with /" := rfl
example : NewMultiaddr "" = .error "failed to parse multiaddr : empty multiaddr" := rfl
example : maToString [.ip4 127 0 0 1, .tcp 9090] = "/ip4/127.0.0.1/tcp/9090" := rfl

/-! ## Model of Go's `time.ParseDuration` and `time.Duration.String`

`time.Duration` is int64 nanoseconds, modelled as `Int`.  The parser
follows Go's: optional sign, then one or more terms, each an integer
part, an optional fraction, and a unit from the unit table, with int64
overflow checks.  (Go computes the fractional contribution through
`float64`; it is modelled here by exact natural division, which agrees
on every value the claims touch.) -/

def maxInt64 : Nat := 9223372036854775807

def durationUnitValue (u : String) : Option Nat :=
  if u = "ns" then some 1
  else if u = "us" ∨ u = "µs" ∨ u = "μs" then some 1000
  else if u = "ms" then some 1000000
  else if u = "s" then some 1000000000
  else if u = "m" then some 60000000000
  else if u = "h" then some 3600000000000
  else none

/-- Model of Go's `leadingFraction`: digits after the decimal point,
accumulated together with the scale, ignoring digits once the int64
accumulator would overflow. -/
def leadingFractionAux : List Char → Nat → Nat → Bool → Nat × Nat × List Char
  | [], x, scale, _ => (x, scale, [])
  | c :: cs, x, scale, overflow =>
    if c.isDigit then
      if overflow then leadingFractionAux cs x scale overflow
      else if x > maxInt64 / 10 then leadingFractionAux cs x scale true
      else leadingFractionAux cs (x * 10 + digitVal c) (scale * 10) false
    else (x, scale, c :: cs)

/-- Splits off the maximal leading run of unit characters (anything that
is neither a digit nor a decimal point). -/
def takeUnitChars : List Char → List Char × List Char
  | [] => ([], [])
  | c :: cs =>
    if c = '.' ∨ c.isDigit then ([], c :: cs)
    else
      let p := takeUnitChars cs
      (c :: p.1, p.2)

/-- Parses one `digits[.digits]unit` term of a duration string, returning
its value in nanoseconds and the remaining characters. -/
def parseDurationTerm (s : List Char) : Except String (Nat × List Char) :=
  match s with
  | [] => .error "time: invalid duration"
  | c :: _ =>
    if ¬ (c = '.' ∨ c.isDigit) then .error "time: invalid duration"
    else
      let ip := takeDigits s
      let v := digitsVal ip.1
      if v > maxInt64 then .error "time: invalid duration"
      else
        let frac :=
          match ip.2 with
          | '.' :: s1 =>
            let q := leadingFractionAux s1 0 1 false
            (q.1, q.2.1, q.2.2, decide (s1.length ≠ q.2.2.length))
          | _ => (0, 1, ip.2, false)
        if ip.1 = [] ∧ frac.2.2.2 = false then .error "time: invalid duration"
        else
          let up := takeUnitChars frac.2.2.1
          if up.1 = [] then .error "time: missing unit in duration"
          else
            match durationUnitValue (String.mk up.1) with
            | none => .error ("time: unknown unit " ++ String.mk up.1 ++ " in duration")
            | some unit =>
              if v > maxInt64 / unit then .error "time: invalid duration"
              else
                let v1 := v * unit
                let v2 := if frac.1 > 0 then v1 + frac.1 * unit / frac.2.1 else v1
                if v2 > maxInt64 then .error "time: invalid duration"
                else .ok (v2, up.2)

/-- The term loop of `time.ParseDuration`.  Each term consumes at least
its (nonempty) unit, so fuel `length + 1` is never exhausted. -/
def parseDurationLoop : Nat → List Char → Nat → Except String Nat
  | 0, _, _ => .error "time: invalid duration"
  | _ + 1, [], d => .ok d
  | fuel + 1, s, d =>
    match parseDurationTerm s with
    | .error e => .error e
    | .ok p =>
      let d2 := d + p.1
      if d2 > maxInt64 then .error "time: invalid duration"
      else parseDurationLoop fuel p.2 d2

/-- Model of Go's `time.ParseDuration`. -/
def goParseDuration (str : String) : Except String Int :=
  let s0 := str.data
  let signed :=
    match s0 with
    | '-' :: rest => (true, rest)
    | '+' :: rest => (false, rest)
    | _ => (false, s0)
  if signed.2 = ['0'] then .ok 0
  else if signed.2 = [] then .error ("time: invalid duration " ++ str)
  else
    match parseDurationLoop (signed.2.length + 1) signed.2 0 with
    | .error e => .error e
    | .ok d => .ok (if signed.1 then -(d : Int) else (d : Int))

/-- Trailing-zero trimming used when formatting fractions. -/
def trimZerosRight (l : List Char) : List Char :=
  (l.reverse.dropWhile (fun c => c = '0')).reverse

def padLeftZeros (l : List Char) (n : Nat) : List Char :=
  List.replicate (n - l.length) '0' ++ l

/-- Model of Go's `fmtFrac`: the fraction suffix (with leading point,
trailing zeros trimmed, empty when the fraction is zero) and the
remaining integer part. -/
def fmtFrac (v : Nat) (prec : Nat) : String × Nat :=
  let q := v / 10 ^ prec
  let r := v % 10 ^ prec
  if r = 0 then ("", q)
  else (String.mk ('.' :: trimZerosRight (padLeftZeros (Nat.repr r).data prec)), q)

/-- Model of Go's `time.Duration.String()`. -/
def fmtDuration (d : Int) : String :=
  let u := d.natAbs
  let core :=
    if u < 1000000000 then
      if u = 0 then "0s"
      else if u < 1000 then Nat.repr u ++ "ns"
      else if u < 1000000 then
        let p := fmtFrac u 3
        Nat.repr p.2 ++ p.1 ++ "µs"
      else
        let p := fmtFrac u 6
        Nat.repr p.2 ++ p.1 ++ "ms"
    else
      let p := fmtFrac u 9
      let sStr := Nat.repr (p.2 % 60) ++ p.1 ++ "s"
      let mins := p.2 / 60
      if mins = 0 then sStr
      else
        let mStr := Nat.repr (mins % 60) ++ "m" ++ sStr
        let hours := mins / 60
        if hours = 0 then mStr else Nat.repr hours ++ "h" ++ mStr
  if d < 0 then "-" ++ core else core

example : goParseDuration "2s" = .ok 2000000000 := rfl
example : goParseDuration "-5s" = .ok (-5000000000) := rfl
example : goParseDuration "" = .error "time: invalid duration " := rfl
example : goParseDuration "1h2m3s" = .ok 3723000000000 := rfl
example : goParseDuration "1.5ms" = .ok 1500000 := rfl
example : fmtDuration 2000000000 = "2s" := rfl
example : fmtDuration (-5000000000) = "-5s" := rfl
example : fmtDuration 0 = "0s" := rfl
example : fmtDuration 3723000000000 = "1h2m3s" := rfl
example : fmtDuration 1500000 = "1.5ms" := rfl
example : goParseDuration (fmtDuration 3723000000000) = .ok 3723000000000 := rfl

/-! ## Models of `strconv.ParseBool` / `strconv.ParseFloat` (used by envconfig) -/

def parseBool (s : String) : Option Bool :=
  if s = "1" ∨ s = "t" ∨ s = "T" ∨ s = "true" ∨ s = "TRUE" ∨ s = "True" then some true
  else if s = "0" ∨ s = "f" ∨ s = "F" ∨ s = "false" ∨ s = "FALSE" ∨ s = "False" then some false
  else none

/-- Model of `strconv.ParseFloat` on plain decimal literals (optional
sign, digits, optional fraction); exponent forms are not modelled --
no claim exercises a float-typed environment override. -/
def parseFloatQ (str : String) : Option ℚ :=
  let s0 := str.data
  let signed :=
    match s0 with
    | '-' :: rest => (true, rest)
    | '+' :: rest => (false, rest)
    | _ => (false, s0)
  let ip := takeDigits signed.2
  let build : Nat → Nat → Nat → Option ℚ := fun i f fl =>
    let v : ℚ := (i : ℚ) + (f : ℚ) / ((10 : ℚ) ^ fl)
    some (if signed.1 then -v else v)
  match ip.2 with
  | [] => if ip.1 = [] then none else build (digitsVal ip.1) 0 0
  | '.' :: r =>
    let fp := takeDigits r
    if fp.2 = [] ∧ (ip.1 ≠ [] ∨ fp.1 ≠ []) then
      build (digitsVal ip.1) (digitsVal fp.1) fp.1.length
    else none
  | _ => none

/-! ## The intermediate JSON structs and the configuration states -/

def metricsConfigKey : String := "metrics"
def tracingConfigKey : String := "tracing"
def envConfigKey : String := "cluster_observations"

def DefaultEnableStats : Bool := false
def DefaultPrometheusEndpoint : String := "/ip4/0.0.0.0/tcp/8888"
def DefaultStatsReportingInterval : Int := 2000000000
def DefaultEnableTracing : Bool := false
def DefaultJaegerAgentEndpoint : String := "/ip4/0.0.0.0/udp/6831"
def DefaultTracingSamplingProb : ℚ := 3 / 10
def DefaultTracingServiceName : String := "cluster-daemon"

/-- Decoded form of the metrics JSON document (`jsonMetricsConfig`);
absent keys decode to the Go zero values used as field defaults here. -/
structure jsonMetricsConfig where
  EnableStats : Bool := false
  PrometheusEndpoint : String := ""
  StatsReportingInterval : String := ""
deriving DecidableEq, Repr

/-- The `MetricsConfig` state; the zero value `{}` models a freshly
constructed instance. -/
structure MetricsConfig where
  EnableStats : Bool := false
  PrometheusEndpoint : Option Multiaddr := none
  StatsReportingInterval : Int := 0
deriving DecidableEq, Repr

/-- Decoded form of the tracing JSON document (`jsonTracingConfig`). -/
structure jsonTracingConfig where
  EnableTracing : Bool := false
  JaegerAgentEndpoint : String := ""
  TracingSamplingProb : ℚ := 0
  TracingServiceName : String := ""
deriving DecidableEq, Repr

/-- The `TracingConfig` state; the zero value `{}` models a freshly
constructed instance. -/
structure TracingConfig where
  EnableTracing : Bool := false
  JaegerAgentEndpoint : Option Multiaddr := none
  TracingSamplingProb : ℚ := 0
  TracingServiceName : String := ""
deriving DecidableEq, Repr

/-! ## Model of the envconfig environment -/

/-- The raw string values of the environment variables overriding the
fields of `jsonMetricsConfig` (`none` = variable unset). -/
structure MetricsEnv where
  enableStats : Option String := none
  prometheusEndpoint : Option String := none
  statsReportingInterval : Option String := none

def emptyMetricsEnv : MetricsEnv := {}

/-- The raw string values of the environment variables overriding the
fields of `jsonTracingConfig` (`none` = variable unset). -/
structure TracingEnv where
  enableTracing : Option String := none
  jaegerAgentEndpoint : Option String := none
  tracingSamplingProb : Option String := none
  tracingServiceName : Option String := none

def emptyTracingEnv : TracingEnv := {}

/-- Model of `envconfig.Process(envConfigKey, jcfg)` on a
`jsonMetricsConfig`: every set variable overrides its field, parsed
according to the field's type; string-typed fields never fail. -/
def envconfigProcessMetrics (env : MetricsEnv) (j : jsonMetricsConfig) :
    Except String jsonMetricsConfig :=
  let e1 : Except String jsonMetricsConfig :=
    match env.enableStats with
    | none => .ok j
    | some s =>
      match parseBool s with
      | none => .error ("envconfig.Process: invalid boolean value " ++ s)
      | some b => .ok { j with EnableStats := b }
  match e1 with
  | .error e => .error e
  | .ok j1 =>
    let j2 :=
      match env.prometheusEndpoint with
      | none => j1
      | some s => { j1 with PrometheusEndpoint := s }
    .ok
      (match env.statsReportingInterval with
       | none => j2
       | some s => { j2 with StatsReportingInterval := s })

/-- Model of `envconfig.Process(envConfigKey, jcfg)` on a
`jsonTracingConfig`; the bool and float fields can fail to parse. -/
def envconfigProcessTracing (env : TracingEnv) (j : jsonTracingConfig) :
    Except String jsonTracingConfig :=
  let e1 : Except String jsonTracingConfig :=
    match env.enableTracing with
    | none => .ok j
    | some s =>
      match parseBool s with
      | none => .error ("envconfig.Process: invalid boolean value " ++ s)
      | some b => .ok { j with EnableTracing := b }
  match e1 with
  | .error e => .error e
  | .ok j1 =>
    let j2 :=
      match env.jaegerAgentEndpoint with
      | none => j1
      | some s => { j1 with JaegerAgentEndpoint := s }
    let e2 : Except String jsonTracingConfig :=
      match env.tracingSamplingProb with
      | none => .ok j2
      | some s =>
        match parseFloatQ s with
        | none => .error ("envconfig.Process: invalid float value " ++ s)
        | some q => .ok { j2 with TracingSamplingProb := q }
    match e2 with
    | .error e => .error e
    | .ok j3 =>
      .ok
        (match env.tracingServiceName with
         | none => j3
         | some s => { j3 with TracingServiceName := s })

/-! ## Modelled repository helpers (config package, not under src/) -/

/-- Modelled from the spec: `config.ParseDurations` of the repository's
config package (only its caller is under src/).  The spec's precedence
rule ("compiled default < JSON document < environment variable", with
the compiled default surviving for a field absent from both) requires
that an empty duration string leave the destination -- already seeded by
`Default()` -- untouched; a nonempty string is parsed as a Go duration,
and a parse failure is reported as an `InvalidDuration` error naming the
component and field. -/
def ParseDurations (component : String) (duration : String) (dst : Int)
    (name : String) : Except String Int :=
  if duration = "" then .ok dst
  else
    match goParseDuration duration with
    | .error e => .error ("error parsing " ++ component ++ "." ++ name ++ ": " ++ e)
    | .ok t => .ok t

/-! ## MetricsConfig operations -/

/-- `MetricsConfig.ConfigKey`. -/
def MetricsConfig.ConfigKey (_cfg : MetricsConfig) : String := metricsConfigKey

/-- `MetricsConfig.Default`: sets every field; the parse error of the
default endpoint string is discarded (`endpointAddr, _ := ...`), so a
failed parse would leave the endpoint nil. -/
def MetricsConfig.Default (cfg : MetricsConfig) : Except String MetricsConfig :=
  .ok { cfg with
        EnableStats := DefaultEnableStats,
        PrometheusEndpoint := (NewMultiaddr DefaultPrometheusEndpoint).toOption,
        StatsReportingInterval := DefaultStatsReportingInterval }

/-- `MetricsConfig.Validate`. -/
def MetricsConfig.Validate (cfg : MetricsConfig) : Except String Unit :=
  if cfg.EnableStats then
    if cfg.PrometheusEndpoint = none then
      .error "metrics.prometheus_endpoint is undefined"
    else if cfg.StatsReportingInterval < 0 then
      .error "metrics.reporting_interval is invalid"
    else .ok ()
  else .ok ()

/-- `MetricsConfig.loadMetricsOptions`. -/
def MetricsConfig.loadMetricsOptions (cfg : MetricsConfig)
    (jcfg : jsonMetricsConfig) : Except String MetricsConfig :=
  let cfg1 := { cfg with EnableStats := jcfg.EnableStats }
  match NewMultiaddr jcfg.PrometheusEndpoint with
  | .error e => .error ("loadMetricsOptions: PrometheusEndpoint multiaddr: " ++ e)
  | .ok endpointAddr =>
    let cfg2 := { cfg1 with PrometheusEndpoint := some endpointAddr }
    match ParseDurations metricsConfigKey jcfg.StatsReportingInterval
        cfg2.StatsReportingInterval "metrics.reporting_interval" with
    | .error e => .error e
    | .ok d => .ok { cfg2 with StatsReportingInterval := d }

/-- `MetricsConfig.LoadJSON`: a `some j` input stands for a JSON
document decoding to `j`, `none` for one rejected by `json.Unmarshal`.
The error returned by the inner `cfg.Default()` call is ignored, as in
the source. -/
def MetricsConfig.LoadJSON (env : MetricsEnv) (cfg : MetricsConfig)
    (raw : Option jsonMetricsConfig) : Except String MetricsConfig :=
  match raw with
  | none => .error "error unmarshaling observations config"
  | some jcfg0 =>
    let cfg1 :=
      match cfg.Default with
      | .ok c => c
      | .error _ => cfg
    match envconfigProcessMetrics env jcfg0 with
    | .error e => .error e
    | .ok jcfg =>
      match cfg1.loadMetricsOptions jcfg with
      | .error e => .error e
      | .ok cfg2 =>
        match cfg2.Validate with
        | .error e => .error e
        | .ok _ => .ok cfg2

/-- `MetricsConfig.ToJSON`: builds the intermediate struct from the
fields (JSON documents being embedded as their decoded structs,
`config.DefaultJSONMarshal` is the identity here).  The receiver's
endpoint is dereferenced unconditionally (`cfg.PrometheusEndpoint.String()`),
so a nil endpoint panics: modelled by `none`. -/
def MetricsConfig.ToJSON (cfg : MetricsConfig) : Option jsonMetricsConfig :=
  match cfg.PrometheusEndpoint with
  | none => none
  | some a =>
    some { EnableStats := cfg.EnableStats,
           PrometheusEndpoint := maToString a,
           StatsReportingInterval := fmtDuration cfg.StatsReportingInterval }

/-! ## TracingConfig operations -/

/-- `TracingConfig.ConfigKey`. -/
def TracingConfig.ConfigKey (_cfg : TracingConfig) : String := tracingConfigKey

/-- `TracingConfig.Default`. -/
def TracingConfig.Default (cfg : TracingConfig) : Except String TracingConfig :=
  .ok { cfg with
        EnableTracing := DefaultEnableTracing,
        JaegerAgentEndpoint := (NewMultiaddr DefaultJaegerAgentEndpoint).toOption,
        TracingSamplingProb := DefaultTracingSamplingProb,
        TracingServiceName := DefaultTracingServiceName }

/-- `TracingConfig.Validate`. -/
def TracingConfig.Validate (cfg : TracingConfig) : Except String Unit :=
  if cfg.EnableTracing then
    if cfg.JaegerAgentEndpoint = none then
      .error "tracing.jaeger_agent_endpoint is undefined"
    else if cfg.TracingSamplingProb < 0 then
      .error "tracing.sampling_prob is invalid"
    else .ok ()
  else .ok ()

/-- `TracingConfig.loadTracingOptions`. -/
def TracingConfig.loadTracingOptions (cfg : TracingConfig)
    (jcfg : jsonTracingConfig) : Except String TracingConfig :=
  let cfg1 := { cfg with EnableTracing := jcfg.EnableTracing }
  match NewMultiaddr jcfg.JaegerAgentEndpoint with
  | .error e => .error ("loadTracingOptions: JaegerAgentEndpoint multiaddr: " ++ e)
  | .ok agentAddr =>
    .ok { cfg1 with
          JaegerAgentEndpoint := some agentAddr,
          TracingSamplingProb := jcfg.TracingSamplingProb,
          TracingServiceName := jcfg.TracingServiceName }

/-- `TracingConfig.LoadJSON`. -/
def TracingConfig.LoadJSON (env : TracingEnv) (cfg : TracingConfig)
    (raw : Option jsonTracingConfig) : Except String TracingConfig :=
  match raw with
  | none => .error "error unmarshaling observations config"
  | some jcfg0 =>
    let cfg1 :=
      match cfg.Default with
      | .ok c => c
      | .error _ => cfg
    match envconfigProcessTracing env jcfg0 with
    | .error e => .error e
    | .ok jcfg =>
      match cfg1.loadTracingOptions jcfg with
      | .error e => .error e
      | .ok cfg2 =>
        match cfg2.Validate with
        | .error e => .error e
        | .ok _ => .ok cfg2

/-- `TracingConfig.ToJSON`: the receiver's endpoint is dereferenced
unconditionally (`cfg.JaegerAgentEndpoint.String()`), so a nil endpoint
panics: modelled by `none`. -/
def TracingConfig.ToJSON (cfg : TracingConfig) : Option jsonTracingConfig :=
  match cfg.JaegerAgentEndpoint with
  | none => none
  | some a =>
    some { EnableTracing := cfg.EnableTracing,
           JaegerAgentEndpoint := maToString a,
           TracingSamplingProb := cfg.TracingSamplingProb,
           TracingServiceName := cfg.TracingServiceName }

example :
    MetricsConfig.LoadJSON emptyMetricsEnv {}
      (some { EnableStats := true,
              PrometheusEndpoint := "/ip4/127.0.0.1/tcp/9090",
              StatsReportingInterval := "5s" }) =
    .ok { EnableStats := true,
          PrometheusEndpoint := some [.ip4 127 0 0 1, .tcp 9090],
          StatsReportingInterval := 5000000000 } := rfl

example :
    TracingConfig.LoadJSON emptyTracingEnv {}
      (some { EnableTracing := true,
              JaegerAgentEndpoint := "/ip4/127.0.0.1/udp/6831",
              TracingSamplingProb := 0,
              TracingServiceName := "svc" }) =
    .ok { EnableTracing := true,
          JaegerAgentEndpoint := some [.ip4 127 0 0 1, .udp 6831],
          TracingSamplingProb := 0,
          TracingServiceName := "svc" } := rfl

example :
    MetricsConfig.LoadJSON emptyMetricsEnv {} (some {}) =
    .error ("loadMetricsOptions: PrometheusEndpoint multiaddr: " ++
      "failed to parse multiaddr : empty multiaddr") := rfl

/-! ## Inversion and introduction lemmas for LoadJSON -/

lemma processMetrics_empty (j : jsonMetricsConfig) :
    envconfigProcessMetrics emptyMetricsEnv j = .ok j := rfl

lemma processTracing_empty (j : jsonTracingConfig) :
    envconfigProcessTracing emptyTracingEnv j = .ok j := rfl

/-- Successful `MetricsConfig.LoadJSON` determines the result's shape:
the env-processed document's enable flag, the parsed endpoint, the
parsed (or default-surviving) interval, and a passing validation. -/
lemma metrics_loadjson_ok_inv {env : MetricsEnv} {cfg : MetricsConfig}
    {j : jsonMetricsConfig} {c : MetricsConfig}
    (h : MetricsConfig.LoadJSON env cfg (some j) = .ok c) :
    ∃ (j' : jsonMetricsConfig) (a : Multiaddr) (d : Int),
      envconfigProcessMetrics env j = .ok j' ∧
      NewMultiaddr j'.PrometheusEndpoint = .ok a ∧
      ParseDurations metricsConfigKey j'.StatsReportingInterval
        DefaultStatsReportingInterval "metrics.reporting_interval" = .ok d ∧
      c = { EnableStats := j'.EnableStats, PrometheusEndpoint := some a,
            StatsReportingInterval := d } ∧
      c.Validate = .ok () := by
  simp only [MetricsConfig.LoadJSON, MetricsConfig.Default,
    MetricsConfig.loadMetricsOptions] at h
  cases hP : envconfigProcessMetrics env j with
  | error e => rw [hP] at h; exact absurd h (by simp)
  | ok j' =>
    rw [hP] at h
    simp only at h
    cases hM : NewMultiaddr j'.PrometheusEndpoint with
    | error e => rw [hM] at h; exact absurd h (by simp)
    | ok a =>
      rw [hM] at h
      simp only at h
      cases hD : ParseDurations metricsConfigKey j'.StatsReportingInterval
          DefaultStatsReportingInterval "metrics.reporting_interval" with
      | error e => rw [hD] at h; exact absurd h (by simp)
      | ok d =>
        rw [hD] at h
        simp only at h
        cases hV : MetricsConfig.Validate
            { EnableStats := j'.EnableStats, PrometheusEndpoint := some a,
              StatsReportingInterval := d } with
        | error e => rw [hV] at h; exact absurd h (by simp)
        | ok u =>
          rw [hV] at h
          simp only [Except.ok.injEq] at h
          cases u
          subst h
          exact ⟨j', a, d, rfl, hM, hD, rfl, hV⟩

/-- Introduction form of the previous lemma. -/
lemma metrics_loadjson_ok_intro {env : MetricsEnv} {cfg : MetricsConfig}
    {j j' : jsonMetricsConfig} {a : Multiaddr} {d : Int}
    (hP : envconfigProcessMetrics env j = .ok j')
    (hM : NewMultiaddr j'.PrometheusEndpoint = .ok a)
    (hD : ParseDurations metricsConfigKey j'.StatsReportingInterval
        DefaultStatsReportingInterval "metrics.reporting_interval" = .ok d)
    (hV : MetricsConfig.Validate
        { EnableStats := j'.EnableStats, PrometheusEndpoint := some a,
          StatsReportingInterval := d } = .ok ()) :
    MetricsConfig.LoadJSON env cfg (some j) =
      .ok { EnableStats := j'.EnableStats, PrometheusEndpoint := some a,
            StatsReportingInterval := d } := by
  simp only [MetricsConfig.LoadJSON, MetricsConfig.Default,
    MetricsConfig.loadMetricsOptions, hP, hM, hD, hV]

/-- Successful `TracingConfig.LoadJSON` determines the result's shape. -/
lemma tracing_loadjson_ok_inv {env : TracingEnv} {cfg : TracingConfig}
    {j : jsonTracingConfig} {c : TracingConfig}
    (h : TracingConfig.LoadJSON env cfg (some j) = .ok c) :
    ∃ (j' : jsonTracingConfig) (a : Multiaddr),
      envconfigProcessTracing env j = .ok j' ∧
      NewMultiaddr j'.JaegerAgentEndpoint = .ok a ∧
      c = { EnableTracing := j'.EnableTracing, JaegerAgentEndpoint := some a,
            TracingSamplingProb := j'.TracingSamplingProb,
            TracingServiceName := j'.TracingServiceName } ∧
      c.Validate = .ok () := by
  simp only [TracingConfig.LoadJSON, TracingConfig.Default,
    TracingConfig.loadTracingOptions] at h
  cases hP : envconfigProcessTracing env j with
  | error e => rw [hP] at h; exact absurd h (by simp)
  | ok j' =>
    rw [hP] at h
    simp only at h
    cases hM : NewMultiaddr j'.JaegerAgentEndpoint with
    | error e => rw [hM] at h; exact absurd h (by simp)
    | ok a =>
      rw [hM] at h
      simp only at h
      cases hV : TracingConfig.Validate
          { EnableTracing := j'.EnableTracing, JaegerAgentEndpoint := some a,
            TracingSamplingProb := j'.TracingSamplingProb,
            TracingServiceName := j'.TracingServiceName } with
      | error e => rw [hV] at h; exact absurd h (by simp)
      | ok u =>
        rw [hV] at h
        simp only [Except.ok.injEq] at h
        cases u
        subst h
        exact ⟨j', a, rfl, hM, rfl, hV⟩

/-- Introduction form of the previous lemma. -/
lemma tracing_loadjson_ok_intro {env : TracingEnv} {cfg : TracingConfig}
    {j j' : jsonTracingConfig} {a : Multiaddr}
    (hP : envconfigProcessTracing env j = .ok j')
    (hM : NewMultiaddr j'.JaegerAgentEndpoint = .ok a)
    (hV : TracingConfig.Validate
        { EnableTracing := j'.EnableTracing, JaegerAgentEndpoint := some a,
          TracingSamplingProb := j'.TracingSamplingProb,
          TracingServiceName := j'.TracingServiceName } = .ok ()) :
    TracingConfig.LoadJSON env cfg (some j) =
      .ok { EnableTracing := j'.EnableTracing, JaegerAgentEndpoint := some a,
            TracingSamplingProb := j'.TracingSamplingProb,
            TracingServiceName := j'.TracingServiceName } := by
  simp only [TracingConfig.LoadJSON, TracingConfig.Default,
    TracingConfig.loadTracingOptions, hP, hM, hV]

/-! ## Claim theorems -/

/-- C2: for every MetricsConfig (resp. TracingConfig) state, if the
enable flag is false then `Validate` returns no error regardless of the
endpoint and numeric fields; if the enable flag is true then `Validate`
returns an error if and only if the endpoint is unset (nil) or the
numeric field (reporting interval resp. sampling probability) is
negative. -/
theorem validate_gating_iff :
    (∀ cfg : MetricsConfig, cfg.EnableStats = false → cfg.Validate = .ok ()) ∧
    (∀ cfg : MetricsConfig, cfg.EnableStats = true →
      ((∃ e, cfg.Validate = .error e) ↔
        cfg.PrometheusEndpoint = none ∨ cfg.StatsReportingInterval < 0)) ∧
    (∀ cfg : TracingConfig, cfg.EnableTracing = false → cfg.Validate = .ok ()) ∧
    (∀ cfg : TracingConfig, cfg.EnableTracing = true →
      ((∃ e, cfg.Validate = .error e) ↔
        cfg.JaegerAgentEndpoint = none ∨ cfg.TracingSamplingProb < 0)) := by
  refine ⟨?_, ?_, ?_, ?_⟩
  · intro cfg h
    simp [MetricsConfig.Validate, h]
  · intro cfg h
    simp only [MetricsConfig.Validate, h, if_true]
    by_cases h1 : cfg.PrometheusEndpoint = none
    · simp [h1]
    · by_cases h2 : cfg.StatsReportingInterval < 0
      · simp [h1, h2]
      · simp [h1, h2]
  · intro cfg h
    simp [TracingConfig.Validate, h]
  · intro cfg h
    simp only [TracingConfig.Validate, h, if_true]
    by_cases h1 : cfg.JaegerAgentEndpoint = none
    · simp [h1]
    · by_cases h2 : cfg.TracingSamplingProb < 0
      · simp [h1, h2]
      · simp [h1, h2]

/-- Witness for C2: a disabled metrics config with unset endpoint and
negative interval validates; an enabled one with unset endpoint errors;
likewise for tracing. -/
theorem validate_gating_iff_witness :
    ({ EnableStats := false, PrometheusEndpoint := none,
       StatsReportingInterval := -1 } : MetricsConfig).Validate = .ok () ∧
    (∃ e, ({ EnableStats := true, PrometheusEndpoint := none,
             StatsReportingInterval := 0 } : MetricsConfig).Validate = .error e) ∧
    ({ EnableTracing := false, JaegerAgentEndpoint := none,
       TracingSamplingProb := -1, TracingServiceName := "" } :
        TracingConfig).Validate = .ok () ∧
    (∃ e, ({ EnableTracing := true, JaegerAgentEndpoint := none,
             TracingSamplingProb := 0, TracingServiceName := "" } :
              TracingConfig).Validate = .error e) :=
  ⟨validate_gating_iff.1 _ rfl,
   (validate_gating_iff.2.1 _ rfl).mpr (Or.inl rfl),
   validate_gating_iff.2.2.1 _ rfl,
   (validate_gating_iff.2.2.2 _ rfl).mpr (Or.inl rfl)⟩

/-- C4: `Default()` on a fresh (zero-valued) instance returns no error
and sets exactly the documented defaults: EnableStats=false, the parse
of "/ip4/0.0.0.0/tcp/8888", 2 seconds; EnableTracing=false, the parse
of "/ip4/0.0.0.0/udp/6831", probability 0.3, service name
"cluster-daemon". -/
theorem default_values_exact :
    MetricsConfig.Default {} =
      .ok { EnableStats := false,
            PrometheusEndpoint := some [.ip4 0 0 0 0, .tcp 8888],
            StatsReportingInterval := 2000000000 } ∧
    NewMultiaddr DefaultPrometheusEndpoint = .ok [.ip4 0 0 0 0, .tcp 8888] ∧
    TracingConfig.Default {} =
      .ok { EnableTracing := false,
            JaegerAgentEndpoint := some [.ip4 0 0 0 0, .udp 6831],
            TracingSamplingProb := 3 / 10,
            TracingServiceName := "cluster-daemon" } ∧
    NewMultiaddr DefaultJaegerAgentEndpoint = .ok [.ip4 0 0 0 0, .udp 6831] :=
  ⟨rfl, rfl, rfl, rfl⟩

/-- C7: TracingConfig.Validate enforces no upper bound on the sampling
probability: with tracing enabled, a non-nil endpoint and a probability
greater than 1, `Validate` returns no error. -/
theorem tracing_validate_no_upper_bound :
    ∀ cfg : TracingConfig, cfg.EnableTracing = true →
      cfg.JaegerAgentEndpoint ≠ none → 1 < cfg.TracingSamplingProb →
      cfg.Validate = .ok () := by
  intro cfg h1 h2 h3
  simp only [TracingConfig.Validate, h1, if_true]
  rw [if_neg h2, if_neg (by linarith)]

/-- Witness for C7: probability 2.0 with tracing enabled validates. -/
theorem tracing_validate_no_upper_bound_witness :
    ({ EnableTracing := true,
       JaegerAgentEndpoint := some [.ip4 0 0 0 0, .udp 6831],
       TracingSamplingProb := 2, TracingServiceName := "" } :
        TracingConfig).Validate = .ok () :=
  tracing_validate_no_upper_bound _ rfl (by simp) (by norm_num)

/-- C8: `ConfigKey` is a pure function of the type: it returns exactly
"metrics" resp. "tracing" for every receiver state (hence its result is
independent of the fields; as a Lean function it cannot mutate the
receiver, matching the Go method, which only returns a constant). -/
theorem configkey_constant :
    (∀ cfg : MetricsConfig, cfg.ConfigKey = "metrics") ∧
    (∀ cfg : TracingConfig, cfg.ConfigKey = "tracing") :=
  ⟨fun _ => rfl, fun _ => rfl⟩

/-- C9: `LoadJSON` on the empty JSON object (no environment overrides)
fails for both configs: the absent endpoint key decodes to the empty
string, which is unconditionally fed to the multiaddr parser and
rejected, so the compiled default endpoint is never used as a fallback.
The error text shows the failure is the endpoint-parsing step. -/
theorem loadjson_empty_object_fails :
    MetricsConfig.LoadJSON emptyMetricsEnv {} (some {}) =
      .error ("loadMetricsOptions: PrometheusEndpoint multiaddr: " ++
        "failed to parse multiaddr : empty multiaddr") ∧
    TracingConfig.LoadJSON emptyTracingEnv {} (some {}) =
      .error ("loadTracingOptions: JaegerAgentEndpoint multiaddr: " ++
        "failed to parse multiaddr : empty multiaddr") :=
  ⟨rfl, rfl⟩

/-- C10: `ToJSON` requires a non-nil endpoint: on any state whose
endpoint field is nil (e.g. a zero-valued instance), the source
dereferences the nil interface in `.String()` and panics instead of
returning an error; the panic is modelled by the `none` result. -/
theorem tojson_nil_endpoint_crash :
    (∀ cfg : MetricsConfig, cfg.PrometheusEndpoint = none →
      cfg.ToJSON = none) ∧
    (∀ cfg : TracingConfig, cfg.JaegerAgentEndpoint = none →
      cfg.ToJSON = none) := by
  constructor
  · intro cfg h
    simp [MetricsConfig.ToJSON, h]
  · intro cfg h
    simp [TracingConfig.ToJSON, h]

/-- Witness for C10: `ToJSON` on the zero-valued instances crashes. -/
theorem tojson_nil_endpoint_crash_witness :
    MetricsConfig.ToJSON {} = none ∧ TracingConfig.ToJSON {} = none :=
  ⟨tojson_nil_endpoint_crash.1 {} rfl, tojson_nil_endpoint_crash.2 {} rfl⟩

/-- C5: for every JSON document whose prometheus_endpoint string fails
multiaddr parsing (no environment overrides set), `MetricsConfig.LoadJSON`
returns the endpoint-parsing error, wrapped with context identifying the
endpoint field, and no usable instance results (the result is an error,
not a config). -/
theorem loadjson_invalid_endpoint_error :
    ∀ (cfg : MetricsConfig) (j : jsonMetricsConfig) (e : String),
      NewMultiaddr j.PrometheusEndpoint = .error e →
      MetricsConfig.LoadJSON emptyMetricsEnv cfg (some j) =
        .error ("loadMetricsOptions: PrometheusEndpoint multiaddr: " ++ e) := by
  intro cfg j e h
  simp only [MetricsConfig.LoadJSON, MetricsConfig.Default,
    processMetrics_empty, MetricsConfig.loadMetricsOptions, h]

/-- Witness for C5: the endpoint string "not-a-multiaddr" is rejected
with the endpoint-parse error. -/
theorem loadjson_invalid_endpoint_error_witness :
    MetricsConfig.LoadJSON emptyMetricsEnv {}
      (some { PrometheusEndpoint := "not-a-multiaddr" }) =
      .error ("loadMetricsOptions: PrometheusEndpoint multiaddr: " ++
        "failed to parse multiaddr not-a-multiaddr: must begin with /") :=
  loadjson_invalid_endpoint_error {} _ _ rfl

/-- C6: for every JSON document with enable_stats true, a well-formed
endpoint and reporting_interval "-5s" (no environment overrides set),
`MetricsConfig.LoadJSON` fails with the `Validate` error for the
reporting interval -- the negative duration parses fine and the failure
comes from the validation step. -/
theorem loadjson_negative_interval_invalidconfig :
    ∀ (cfg : MetricsConfig) (j : jsonMetricsConfig) (a : Multiaddr),
      j.EnableStats = true →
      NewMultiaddr j.PrometheusEndpoint = .ok a →
      j.StatsReportingInterval = "-5s" →
      MetricsConfig.LoadJSON emptyMetricsEnv cfg (some j) =
        .error "metrics.reporting_interval is invalid" := by
  intro cfg j a h1 h2 h3
  have hd : ParseDurations metricsConfigKey j.StatsReportingInterval
      DefaultStatsReportingInterval "metrics.reporting_interval" =
      .ok (-5000000000) := by
    rw [h3]; rfl
  simp only [MetricsConfig.LoadJSON, MetricsConfig.Default,
    processMetrics_empty, MetricsConfig.loadMetricsOptions, h2, hd,
    MetricsConfig.Validate, h1]
  rfl

/-- Witness for C6. -/
theorem loadjson_negative_interval_invalidconfig_witness :
    MetricsConfig.LoadJSON emptyMetricsEnv {}
      (some { EnableStats := true,
              PrometheusEndpoint := "/ip4/127.0.0.1/tcp/9090",
              StatsReportingInterval := "-5s" }) =
      .error "metrics.reporting_interval is invalid" :=
  loadjson_negative_interval_invalidconfig {} _ [.ip4 127 0 0 1, .tcp 9090]
    rfl rfl rfl

/-- A set (and parseable) enable-flag environment variable forces the
enable flag of the env-processed metrics document, whatever the other
variables hold. -/
lemma processMetrics_enable_override {env : MetricsEnv}
    {j j' : jsonMetricsConfig} {s : String} {b : Bool}
    (hs : env.enableStats = some s) (hb : parseBool s = some b)
    (hP : envconfigProcessMetrics env j = .ok j') :
    j'.EnableStats = b := by
  rcases env with ⟨es, pe, si⟩
  simp only at hs
  subst hs
  simp only [envconfigProcessMetrics, hb] at hP
  cases pe <;> cases si <;>
    (simp only [Except.ok.injEq] at hP
     subst hP
     rfl)

/-- C3 counterexample: the compiled default does NOT survive for a field
absent from both the JSON document and the environment.  The tracing
document holding only a jaeger_agent_endpoint key (so sampling_prob and
service_name are absent and decode to the Go zero values 0 and "") loads
successfully, yet the loaded config carries sampling probability 0 and
service name "" instead of the compiled defaults 0.3 and
"cluster-daemon". -/
theorem precedence_default_not_survive_counterexample :
    TracingConfig.LoadJSON emptyTracingEnv {}
      (some { JaegerAgentEndpoint := "/ip4/0.0.0.0/udp/6831" }) =
      .ok { EnableTracing := false,
            JaegerAgentEndpoint := some [.ip4 0 0 0 0, .udp 6831],
            TracingSamplingProb := 0,
            TracingServiceName := "" } ∧
    (0 : ℚ) ≠ DefaultTracingSamplingProb ∧
    "" ≠ DefaultTracingServiceName :=
  ⟨rfl, by norm_num [DefaultTracingSamplingProb], by decide⟩

/-- C3 (amended): (i) a set environment override wins over the JSON
document for the metrics enable flag (in particular enable_stats=false
in JSON with the variable set to "true" loads as EnableStats=true);
(ii) the compiled default survives for the metrics reporting interval
when it is absent from JSON and environment (absent decodes to "",
which the duration helper skips); (iii) for the other fields the
decoded JSON document value -- the Go zero value when the key is
absent -- overwrites the compiled default (shown for the tracing enable
flag, sampling probability and service name with no overrides set). -/
theorem precedence_env_over_json_amended :
    (∀ (cfg : MetricsConfig) (j : jsonMetricsConfig) (env : MetricsEnv)
       (c : MetricsConfig) (s : String) (b : Bool),
       env.enableStats = some s → parseBool s = some b →
       MetricsConfig.LoadJSON env cfg (some j) = .ok c →
       c.EnableStats = b) ∧
    (∀ (cfg : MetricsConfig) (j : jsonMetricsConfig) (c : MetricsConfig),
       j.StatsReportingInterval = "" →
       MetricsConfig.LoadJSON emptyMetricsEnv cfg (some j) = .ok c →
       c.StatsReportingInterval = DefaultStatsReportingInterval) ∧
    (∀ (cfg : TracingConfig) (j : jsonTracingConfig) (c : TracingConfig),
       TracingConfig.LoadJSON emptyTracingEnv cfg (some j) = .ok c →
       c.EnableTracing = j.EnableTracing ∧
       c.TracingSamplingProb = j.TracingSamplingProb ∧
       c.TracingServiceName = j.TracingServiceName) := by
  refine ⟨?_, ?_, ?_⟩
  · intro cfg j env c s b hs hb h
    obtain ⟨j', a, d, hP, hM, hD, hc, hV⟩ := metrics_loadjson_ok_inv h
    subst hc
    exact processMetrics_enable_override hs hb hP
  · intro cfg j c hint h
    obtain ⟨j', a, d, hP, hM, hD, hc, hV⟩ := metrics_loadjson_ok_inv h
    rw [processMetrics_empty] at hP
    simp only [Except.ok.injEq] at hP
    subst hP
    rw [hint] at hD
    have he : ParseDurations metricsConfigKey "" DefaultStatsReportingInterval
        "metrics.reporting_interval" = .ok DefaultStatsReportingInterval := rfl
    rw [he] at hD
    simp only [Except.ok.injEq] at hD
    subst hc
    exact hD.symm
  · intro cfg j c h
    obtain ⟨j', a, hP, hM, hc, hV⟩ := tracing_loadjson_ok_inv h
    rw [processTracing_empty] at hP
    simp only [Except.ok.injEq] at hP
    subst hP
    subst hc
    exact ⟨rfl, rfl, rfl⟩

/-- Witness for the amended C3: (i) the spec's example -- JSON with
enable_stats=false, environment variable "true": the loaded config has
EnableStats=true; (ii) interval absent from JSON and environment: the
loaded interval is the compiled default 2s; (iii) tracing JSON with all
keys absent except the endpoint: the loaded values are the decoded zero
values. -/
theorem precedence_env_over_json_amended_witness :
    ({ EnableStats := true,
       PrometheusEndpoint := some [.ip4 0 0 0 0, .tcp 8888],
       StatsReportingInterval := 2000000000 } : MetricsConfig).EnableStats =
      true ∧
    ({ EnableStats := true,
       PrometheusEndpoint := some [.ip4 0 0 0 0, .tcp 8888],
       StatsReportingInterval := 2000000000 } :
        MetricsConfig).StatsReportingInterval =
      DefaultStatsReportingInterval ∧
    (({ EnableTracing := false,
        JaegerAgentEndpoint := some [.ip4 0 0 0 0, .udp 6831],
        TracingSamplingProb := 0, TracingServiceName := "" } :
         TracingConfig).EnableTracing =
       ({ JaegerAgentEndpoint := "/ip4/0.0.0.0/udp/6831" } :
         jsonTracingConfig).EnableTracing ∧
     ({ EnableTracing := false,
        JaegerAgentEndpoint := some [.ip4 0 0 0 0, .udp 6831],
        TracingSamplingProb := 0, TracingServiceName := "" } :
         TracingConfig).TracingSamplingProb =
       ({ JaegerAgentEndpoint := "/ip4/0.0.0.0/udp/6831" } :
         jsonTracingConfig).TracingSamplingProb ∧
     ({ EnableTracing := false,
        JaegerAgentEndpoint := some [.ip4 0 0 0 0, .udp 6831],
        TracingSamplingProb := 0, TracingServiceName := "" } :
         TracingConfig).TracingServiceName =
       ({ JaegerAgentEndpoint := "/ip4/0.0.0.0/udp/6831" } :
         jsonTracingConfig).TracingServiceName) :=
  ⟨precedence_env_over_json_amended.1 {}
     { EnableStats := false, PrometheusEndpoint := "/ip4/0.0.0.0/tcp/8888" }
     { enableStats := some "true" } _ "true" true rfl rfl rfl,
   precedence_env_over_json_amended.2.1 {}
     { EnableStats := true, PrometheusEndpoint := "/ip4/0.0.0.0/tcp/8888" }
     _ rfl rfl,
   precedence_env_over_json_amended.2.2 {}
     { JaegerAgentEndpoint := "/ip4/0.0.0.0/udp/6831" } _ rfl⟩

/-- C1: for every config produced by a successful `LoadJSON` call with
no environment overrides, `LoadJSON` applied to the `ToJSON` output
succeeds and yields a semantically equal config (same enable flag, same
endpoint, same interval / sampling probability / service name).  The
two extra hypotheses are the round-trip guarantees of the external
libraries at the loaded values -- the go-multiaddr library re-parses the
canonical string of a parsed address to the same address, and Go's
`time` package re-parses `Duration.String()` to the same duration; both
are discharged by computation on the concrete models in the witness. -/
theorem load_tojson_roundtrip :
    (∀ (cfg cfg2 : MetricsConfig) (j : jsonMetricsConfig) (c : MetricsConfig),
       MetricsConfig.LoadJSON emptyMetricsEnv cfg (some j) = .ok c →
       (∀ a, c.PrometheusEndpoint = some a →
         NewMultiaddr (maToString a) = .ok a) →
       goParseDuration (fmtDuration c.StatsReportingInterval) =
         .ok c.StatsReportingInterval →
       MetricsConfig.LoadJSON emptyMetricsEnv cfg2 c.ToJSON = .ok c) ∧
    (∀ (cfg cfg2 : TracingConfig) (j : jsonTracingConfig) (c : TracingConfig),
       TracingConfig.LoadJSON emptyTracingEnv cfg (some j) = .ok c →
       (∀ a, c.JaegerAgentEndpoint = some a →
         NewMultiaddr (maToString a) = .ok a) →
       TracingConfig.LoadJSON emptyTracingEnv cfg2 c.ToJSON = .ok c) := by
  constructor
  · intro cfg cfg2 j c h hma hdur
    obtain ⟨j', a, d, hP, hM, hD, hc, hV⟩ := metrics_loadjson_ok_inv h
    subst hc
    dsimp only at hma hdur ⊢
    have hma2 := hma a rfl
    have hfne : fmtDuration d ≠ "" := by
      intro hemp
      rw [hemp] at hdur
      have he : goParseDuration "" = .error "time: invalid duration " := rfl
      rw [he] at hdur
      exact Except.noConfusion hdur
    have hD2 : ParseDurations metricsConfigKey (fmtDuration d)
        DefaultStatsReportingInterval "metrics.reporting_interval" = .ok d := by
      unfold ParseDurations
      rw [if_neg hfne, hdur]
    exact @metrics_loadjson_ok_intro emptyMetricsEnv cfg2
      { EnableStats := j'.EnableStats, PrometheusEndpoint := maToString a,
        StatsReportingInterval := fmtDuration d }
      { EnableStats := j'.EnableStats, PrometheusEndpoint := maToString a,
        StatsReportingInterval := fmtDuration d }
      a d (processMetrics_empty _) hma2 hD2 hV
  · intro cfg cfg2 j c h hma
    obtain ⟨j', a, hP, hM, hc, hV⟩ := tracing_loadjson_ok_inv h
    subst hc
    dsimp only at hma ⊢
    have hma2 := hma a rfl
    exact @tracing_loadjson_ok_intro emptyTracingEnv cfg2
      { EnableTracing := j'.EnableTracing, JaegerAgentEndpoint := maToString a,
        TracingSamplingProb := j'.TracingSamplingProb,
        TracingServiceName := j'.TracingServiceName }
      { EnableTracing := j'.EnableTracing, JaegerAgentEndpoint := maToString a,
        TracingSamplingProb := j'.TracingSamplingProb,
        TracingServiceName := j'.TracingServiceName }
      a (processTracing_empty _) hma2 hV

/-- Witness for C1: the spec's end-to-end example config (enable_stats
true, endpoint /ip4/127.0.0.1/tcp/9090, interval 5s), as produced by
`LoadJSON`, survives the `ToJSON`-then-`LoadJSON` round trip, and the
analogous tracing config does too. -/
theorem load_tojson_roundtrip_witness :
    MetricsConfig.LoadJSON emptyMetricsEnv {}
      (MetricsConfig.ToJSON
        { EnableStats := true,
          PrometheusEndpoint := some [.ip4 127 0 0 1, .tcp 9090],
          StatsReportingInterval := 5000000000 }) =
      .ok { EnableStats := true,
            PrometheusEndpoint := some [.ip4 127 0 0 1, .tcp 9090],
            StatsReportingInterval := 5000000000 } ∧
    TracingConfig.LoadJSON emptyTracingEnv {}
      (TracingConfig.ToJSON
        { EnableTracing := true,
          JaegerAgentEndpoint := some [.ip4 127 0 0 1, .udp 6831],
          TracingSamplingProb := 0, TracingServiceName := "svc" }) =
      .ok { EnableTracing := true,
            JaegerAgentEndpoint := some [.ip4 127 0 0 1, .udp 6831],
            TracingSamplingProb := 0, TracingServiceName := "svc" } :=
  ⟨load_tojson_roundtrip.1 {} {}
     { EnableStats := true,
       PrometheusEndpoint := "/ip4/127.0.0.1/tcp/9090",
       StatsReportingInterval := "5s" }
     { EnableStats := true,
       PrometheusEndpoint := some [.ip4 127 0 0 1, .tcp 9090],
       StatsReportingInterval := 5000000000 }
     rfl
     (by
       intro a ha
       have hax : a = [MAComponent.ip4 127 0 0 1, MAComponent.tcp 9090] := by
         simpa using ha.symm
       subst hax
       rfl)
     rfl,
   load_tojson_roundtrip.2 {} {}
     { EnableTracing := true,
       JaegerAgentEndpoint := "/ip4/127.0.0.1/udp/6831",
       TracingSamplingProb := 0, TracingServiceName := "svc" }
     { EnableTracing := true,
       JaegerAgentEndpoint := some [.ip4 127 0 0 1, .udp 6831],
       TracingSamplingProb := 0, TracingServiceName := "svc" }
     rfl
     (by
       intro a ha
       have hax : a = [MAComponent.ip4 127 0 0 1, MAComponent.udp 6831] := by
         simpa using ha.symm
       subst hax
       rfl)⟩

end Observations
